import Mathlib

/-!
# json-maker: upload, list and download handlers

A shallow embedding of `api/upload.js` (the in-memory handlers for upload, listing and
download) and of `server.js` (the disk-backed Express server), together with the
properties of the natural-language specification that are settled against them.

Conventions of the embedding.

* A JavaScript string is the list of its UTF-16 code units (`JSString`); a `Buffer` is the
  list of its bytes (`Bytes`). Both are lists of natural numbers.
* Module state (`let files = []`, the `./files` directory) is passed explicitly: a handler
  takes the state before the request and returns the state after it with the response.
  The upload, listing and download functions of `api/upload.js` each declare an array `files`
  of their own; `Modules` holds the three, and the handlers take the array they work on as
  an argument.
* The rate limiter of `express-rate-limit` is an external collaborator: its verdict for the
  request at hand is a field of the request (`limiterAllows`).
-/

namespace JsonMaker

/-! ## Strings and buffers -/

/-- A JavaScript string, as the sequence of its UTF-16 code units. -/
abbrev JSString := List Nat

/-- The contents of a Node `Buffer`, as the sequence of its bytes. -/
abbrev Bytes := List Nat

/-- The code units of a string literal of the source. Used on ASCII literals only, where
code points and UTF-16 code units coincide. -/
def jsLit (s : String) : JSString := s.toList.map Char.toNat

/-- The method `s.endsWith(suffix)`. -/
def endsWith (s suffix : JSString) : Bool := suffix.isSuffixOf s

/-- The method `s.includes(needle)`: some position of `s` starts an occurrence of `needle`. -/
def includes : JSString → JSString → Bool
  | [], needle => needle.isEmpty
  | c :: cs, needle => needle.isPrefixOf (c :: cs) || includes cs needle

/-! ## Name sanitising and key derivation -/

/-- The character class `[a-zA-Z0-9]`, on one UTF-16 code unit. -/
def isAlnum (c : Nat) : Bool :=
  (0x61 ≤ c && c ≤ 0x7A) || (0x41 ≤ c && c ≤ 0x5A) || (0x30 ≤ c && c ≤ 0x39)

/-- The negated class `[^a-zA-Z0-9]` of the regular expression `/[^a-zA-Z0-9]/g`. The
expression carries neither the `u` nor the `i` flag, so it is matched against single code
units, case-sensitively. -/
def notAlnumClass (c : Nat) : Bool := !isAlnum c

/-- The method `s.replace(re, replacement)` for a global regular expression `re` that is a
single character class: the string is scanned from left to right, every code unit matched
by the class is replaced by `replacement`, every other code unit is copied. -/
def replaceGlobal (cls : Nat → Bool) (replacement : JSString) : JSString → JSString
  | [] => []
  | c :: cs =>
    if cls c then replacement ++ replaceGlobal cls replacement cs
    else c :: replaceGlobal cls replacement cs

/-- The transform `x.replace(/[^a-zA-Z0-9]/g, '_')` applied to `fileName` and `authorName`
in `api/upload.js` (lines 74-75) and in `server.js` (lines 31-32). -/
def sanitize (s : JSString) : JSString := replaceGlobal notAlnumClass (jsLit "_") s

/-- Reference definition of the sanitiser, after the words of the specification:
"Replaces every character not in `[A-Za-z0-9]` with `_`". -/
def sanitizeSpec (s : JSString) : JSString := s.map fun c => if isAlnum c then c else 0x5F

/-- The template literal of `api/upload.js`, line 76, over the two sanitised names:
`${sanitizedFileName}_${sanitizedAuthorName}.json`. -/
def fileNameWithAuthor (fileName authorName : JSString) : JSString :=
  let sanitizedFileName := sanitize fileName
  let sanitizedAuthorName := sanitize authorName
  sanitizedFileName ++ jsLit "_" ++ sanitizedAuthorName ++ jsLit ".json"

/-- The `filename` callback of `multer.diskStorage` in `server.js`, lines 30-34, on a
request body that holds both fields. -/
def diskStorageFilename (bodyFileName bodyAuthorName : JSString) : JSString :=
  let fileName := sanitize bodyFileName
  let authorName := sanitize bodyAuthorName
  fileName ++ jsLit "_" ++ authorName ++ jsLit ".json"

/-- The characters allowed in the stem of a storage key: `[A-Za-z0-9_]`. -/
def isKeyChar (c : Nat) : Bool := isAlnum c || c == 0x5F

/-! ## UTF-8 decoding and encoding

`buffer.toString('utf8')` and `fs.readFile(path, 'utf8')` decode bytes to a string and never
fail: every maximal ill-formed subsequence is replaced by U+FFFD (the replacement character),
and a byte order mark is kept. `res.send(string)` encodes a string as UTF-8, an unpaired
surrogate becoming the three bytes of U+FFFD. -/

/-- The closed range `lo..hi`. -/
def inRange (lo hi b : Nat) : Bool := lo ≤ b && b ≤ hi

/-- Least second byte allowed after the lead byte `b0` of a multi-byte sequence. -/
def secondLo (b0 : Nat) : Nat := if b0 = 0xE0 then 0xA0 else if b0 = 0xF0 then 0x90 else 0x80

/-- Greatest second byte allowed after the lead byte `b0` of a multi-byte sequence. -/
def secondHi (b0 : Nat) : Nat := if b0 = 0xED then 0x9F else if b0 = 0xF4 then 0x8F else 0xBF

/-- The call `buffer.toString('utf8')`: lenient UTF-8 decoding to UTF-16 code units. A code point
above U+FFFF is written as a surrogate pair. -/
def utf8Decode : Bytes → JSString
  | [] => []
  | b0 :: rest =>
    if b0 < 0x80 then b0 :: utf8Decode rest
    else if inRange 0xC2 0xDF b0 then
      match rest with
      | [] => [0xFFFD]
      | b1 :: r1 =>
        if inRange 0x80 0xBF b1 then ((b0 - 0xC0) * 0x40 + (b1 - 0x80)) :: utf8Decode r1
        else 0xFFFD :: utf8Decode (b1 :: r1)
    else if inRange 0xE0 0xEF b0 then
      match rest with
      | [] => [0xFFFD]
      | b1 :: r1 =>
        if inRange (secondLo b0) (secondHi b0) b1 then
          match r1 with
          | [] => [0xFFFD]
          | b2 :: r2 =>
            if inRange 0x80 0xBF b2 then
              ((b0 - 0xE0) * 0x1000 + (b1 - 0x80) * 0x40 + (b2 - 0x80)) :: utf8Decode r2
            else 0xFFFD :: utf8Decode (b2 :: r2)
        else 0xFFFD :: utf8Decode (b1 :: r1)
    else if inRange 0xF0 0xF4 b0 then
      match rest with
      | [] => [0xFFFD]
      | b1 :: r1 =>
        if inRange (secondLo b0) (secondHi b0) b1 then
          match r1 with
          | [] => [0xFFFD]
          | b2 :: r2 =>
            if inRange 0x80 0xBF b2 then
              match r2 with
              | [] => [0xFFFD]
              | b3 :: r3 =>
                if inRange 0x80 0xBF b3 then
                  let cp := (b0 - 0xF0) * 0x40000 + (b1 - 0x80) * 0x1000 + (b2 - 0x80) * 0x40
                    + (b3 - 0x80)
                  (0xD800 + (cp - 0x10000) / 0x400) :: (0xDC00 + (cp - 0x10000) % 0x400)
                    :: utf8Decode r3
                else 0xFFFD :: utf8Decode (b3 :: r3)
            else 0xFFFD :: utf8Decode (b2 :: r2)
        else 0xFFFD :: utf8Decode (b1 :: r1)
    else 0xFFFD :: utf8Decode rest

/-- The bytes written by `res.send(string)`: the UTF-8 encoding of a string of UTF-16 code
units. -/
def utf8Encode : JSString → Bytes
  | [] => []
  | u :: rest =>
    if u < 0x80 then u :: utf8Encode rest
    else if u < 0x800 then (0xC0 + u / 0x40) :: (0x80 + u % 0x40) :: utf8Encode rest
    else if inRange 0xD800 0xDBFF u then
      match rest with
      | [] => [0xEF, 0xBF, 0xBD]
      | lo :: r1 =>
        if inRange 0xDC00 0xDFFF lo then
          let cp := 0x10000 + (u - 0xD800) * 0x400 + (lo - 0xDC00)
          (0xF0 + cp / 0x40000) :: (0x80 + cp / 0x1000 % 0x40) :: (0x80 + cp / 0x40 % 0x40)
            :: (0x80 + cp % 0x40) :: utf8Encode r1
        else 0xEF :: 0xBF :: 0xBD :: utf8Encode (lo :: r1)
    else if inRange 0xDC00 0xDFFF u then 0xEF :: 0xBF :: 0xBD :: utf8Encode rest
    else (0xE0 + u / 0x1000) :: (0x80 + u / 0x40 % 0x40) :: (0x80 + u % 0x40) :: utf8Encode rest

/-- Well-formed UTF-8 byte sequences (Unicode Standard, table 3-7): the byte sequences that
are the encoding of some sequence of Unicode scalar values. -/
def wellFormedUtf8 : Bytes → Bool
  | [] => true
  | b0 :: rest =>
    if b0 < 0x80 then wellFormedUtf8 rest
    else if inRange 0xC2 0xDF b0 then
      match rest with
      | [] => false
      | b1 :: r1 => inRange 0x80 0xBF b1 && wellFormedUtf8 r1
    else if inRange 0xE0 0xEF b0 then
      match rest with
      | [] => false
      | b1 :: r1 =>
        match r1 with
        | [] => false
        | b2 :: r2 =>
          inRange (secondLo b0) (secondHi b0) b1 && inRange 0x80 0xBF b2 && wellFormedUtf8 r2
    else if inRange 0xF0 0xF4 b0 then
      match rest with
      | [] => false
      | b1 :: r1 =>
        match r1 with
        | [] => false
        | b2 :: r2 =>
          match r2 with
          | [] => false
          | b3 :: r3 =>
            inRange (secondLo b0) (secondHi b0) b1 && inRange 0x80 0xBF b2
              && inRange 0x80 0xBF b3 && wellFormedUtf8 r3
    else false

/-! ## JSON.parse

`JSON.parse(text)` either returns a value or throws a `SyntaxError`; the handlers use only
which of the two happens. The recogniser below accepts exactly the JSON texts of ECMA-404
(the grammar `JSON.parse` implements): it reads the code units from left to right, keeping
the stack of the arrays and objects that are open. -/

/-- An open container of the JSON text being read. -/
inductive Container where
  | array
  | object

/-- What the recogniser has just read. `str`, `esc` and `hex` are inside a string (a member
name when `isKey`), `lit` inside `true`, `false` or `null` with the code units still
expected, the last eight inside a number. -/
inductive JsonState where
  | value
  | arrayStart
  | objectStart
  | key
  | colon
  | afterValue
  | str (isKey : Bool)
  | esc (isKey : Bool)
  | hex (isKey : Bool) (remaining : Nat)
  | lit (expected : List Nat)
  | minus
  | zero
  | int
  | fracStart
  | frac
  | expStart
  | expSign
  | exp

/-- JSON whitespace: space, tab, line feed, carriage return. -/
def isWs (c : Nat) : Bool := c == 0x20 || c == 0x09 || c == 0x0A || c == 0x0D

/-- A decimal digit. -/
def isDigit (c : Nat) : Bool := inRange 0x30 0x39 c

/-- A hexadecimal digit, of either case. -/
def isHexDigit (c : Nat) : Bool := isDigit c || inRange 0x41 0x46 c || inRange 0x61 0x66 c

/-- The first code unit `c` of a value. -/
def beginValue (stack : List Container) (c : Nat) : Option (JsonState × List Container) :=
  if c == 0x22 then some (.str false, stack)                         -- quotation mark
  else if c == 0x7B then some (.objectStart, .object :: stack)       -- left brace
  else if c == 0x5B then some (.arrayStart, .array :: stack)         -- left bracket
  else if c == 0x74 then some (.lit (jsLit "rue"), stack)            -- t
  else if c == 0x66 then some (.lit (jsLit "alse"), stack)           -- f
  else if c == 0x6E then some (.lit (jsLit "ull"), stack)            -- n
  else if c == 0x2D then some (.minus, stack)                        -- minus sign
  else if c == 0x30 then some (.zero, stack)
  else if inRange 0x31 0x39 c then some (.int, stack)
  else none

/-- The code unit `c` that follows a complete value. -/
def endValue (stack : List Container) (c : Nat) : Option (JsonState × List Container) :=
  if isWs c then some (.afterValue, stack)
  else if c == 0x2C then                                             -- comma
    match stack with
    | .array :: _ => some (.value, stack)
    | .object :: _ => some (.key, stack)
    | [] => none
  else if c == 0x5D then                                             -- right bracket
    match stack with
    | .array :: outer => some (.afterValue, outer)
    | _ => none
  else if c == 0x7D then                                             -- right brace
    match stack with
    | .object :: outer => some (.afterValue, outer)
    | _ => none
  else none

/-- One step of the recogniser; `none` is the `SyntaxError`. -/
def jsonStep : JsonState × List Container → Nat → Option (JsonState × List Container)
  | (.value, stack), c => if isWs c then some (.value, stack) else beginValue stack c
  | (.arrayStart, stack), c =>
    if isWs c then some (.arrayStart, stack)
    else if c == 0x5D then endValue stack c
    else beginValue stack c
  | (.objectStart, stack), c =>
    if isWs c then some (.objectStart, stack)
    else if c == 0x7D then endValue stack c
    else if c == 0x22 then some (.str true, stack)
    else none
  | (.key, stack), c =>
    if isWs c then some (.key, stack)
    else if c == 0x22 then some (.str true, stack)
    else none
  | (.colon, stack), c =>
    if isWs c then some (.colon, stack)
    else if c == 0x3A then some (.value, stack)
    else none
  | (.afterValue, stack), c => endValue stack c
  | (.str isKey, stack), c =>
    if c == 0x22 then some (if isKey then .colon else .afterValue, stack)
    else if c == 0x5C then some (.esc isKey, stack)                  -- reverse solidus
    else if c < 0x20 then none
    else some (.str isKey, stack)
  | (.esc isKey, stack), c =>
    if c == 0x22 || c == 0x5C || c == 0x2F || c == 0x62 || c == 0x66 || c == 0x6E
        || c == 0x72 || c == 0x74 then some (.str isKey, stack)
    else if c == 0x75 then some (.hex isKey 4, stack)
    else none
  | (.hex _ 0, _), _ => none
  | (.hex isKey (n + 1), stack), c =>
    if isHexDigit c then some (if n = 0 then .str isKey else .hex isKey n, stack) else none
  | (.lit [], _), _ => none
  | (.lit (e :: es), stack), c =>
    if c == e then some (if es.isEmpty then .afterValue else .lit es, stack) else none
  | (.minus, stack), c =>
    if c == 0x30 then some (.zero, stack)
    else if inRange 0x31 0x39 c then some (.int, stack)
    else none
  | (.zero, stack), c =>
    if c == 0x2E then some (.fracStart, stack)
    else if c == 0x65 || c == 0x45 then some (.expStart, stack)
    else endValue stack c
  | (.int, stack), c =>
    if isDigit c then some (.int, stack)
    else if c == 0x2E then some (.fracStart, stack)
    else if c == 0x65 || c == 0x45 then some (.expStart, stack)
    else endValue stack c
  | (.fracStart, stack), c => if isDigit c then some (.frac, stack) else none
  | (.frac, stack), c =>
    if isDigit c then some (.frac, stack)
    else if c == 0x65 || c == 0x45 then some (.expStart, stack)
    else endValue stack c
  | (.expStart, stack), c =>
    if c == 0x2B || c == 0x2D then some (.expSign, stack)
    else if isDigit c then some (.exp, stack)
    else none
  | (.expSign, stack), c => if isDigit c then some (.exp, stack) else none
  | (.exp, stack), c => if isDigit c then some (.exp, stack) else endValue stack c

/-- The recogniser run over a text. -/
def jsonRun : JsonState × List Container → JSString → Option (JsonState × List Container)
  | cfg, [] => some cfg
  | cfg, c :: cs =>
    match jsonStep cfg c with
    | some next => jsonRun next cs
    | none => none

/-- At the end of the text: one complete value has been read and nothing is open. -/
def jsonAccepting : JsonState × List Container → Bool
  | (.afterValue, []) => true
  | (.zero, []) => true
  | (.int, []) => true
  | (.frac, []) => true
  | (.exp, []) => true
  | _ => false

/-- Whether `JSON.parse(text)` returns (`true`) or throws (`false`). -/
def jsonParses (text : JSString) : Bool :=
  match jsonRun (.value, []) text with
  | some cfg => jsonAccepting cfg
  | none => false

/-! ## Requests, responses and the shared middleware -/

/-- The part named `file` of a multipart upload, as `multer` presents it. -/
structure UploadedFile where
  originalname : JSString
  buffer : Bytes
  deriving DecidableEq

/-- The value of a text field in `req.body`: a string, or an array of strings when the field
was sent more than once. -/
inductive FieldValue where
  | text (value : JSString)
  | array (items : List JSString)
  deriving DecidableEq

/-- JavaScript truthiness of a field value: the empty string is falsy, an array is truthy. -/
def FieldValue.truthy : FieldValue → Bool
  | .text value => !value.isEmpty
  | .array _ => true

/-- The string of a field value that is a string. -/
def FieldValue.text? : FieldValue → Option JSString
  | .text value => some value
  | .array _ => none

/-- What `multer` leaves on the request after it parsed a multipart body: `req.file`, the
part named `file` (if one was sent), and the fields `fileName` and `authorName` of `req.body`
(if sent). In `server.js` the fields are those that `req.body` holds when the file part
arrives. -/
structure Multipart where
  file : Option UploadedFile
  fileName : Option FieldValue
  authorName : Option FieldValue
  deriving DecidableEq

/-- An upload request. `userAgent` is `req.headers['user-agent']`, `limiterAllows` the
verdict of the rate limiter. `multipart` is `none` when the request is not a multipart
request: `multer` then passes it on unparsed, and `req.body` and `req.file` are undefined. -/
structure UploadRequest where
  userAgent : Option JSString
  limiterAllows : Bool
  multipart : Option Multipart
  deriving DecidableEq

/-- The file part of the request, `req.file`, when there is one. -/
def UploadRequest.file (req : UploadRequest) : Option UploadedFile :=
  req.multipart.bind fun form => form.file

/-- The field `req.body.fileName`, when the request holds it as a string. -/
def UploadRequest.fileName (req : UploadRequest) : Option JSString :=
  req.multipart.bind fun form => form.fileName.bind FieldValue.text?

/-- The field `req.body.authorName`, when the request holds it as a string. -/
def UploadRequest.authorName (req : UploadRequest) : Option JSString :=
  req.multipart.bind fun form => form.authorName.bind FieldValue.text?

/-- A request to the listing or to the download endpoint: the headers and the rate
limiter's verdict. -/
structure ReadRequest where
  userAgent : Option JSString
  limiterAllows : Bool
  deriving DecidableEq

/-- The body of a response. -/
inductive Body where
  /-- The object with the one field `error`, sent by `res.json`. -/
  | error (msg : String)
  /-- The object with the one field `message`, sent by `res.json`. -/
  | message (msg : String)
  /-- A fixed text of the source, sent by `res.send`. -/
  | text (msg : String)
  /-- An array of strings, sent by `res.json`. -/
  | names (keys : List JSString)
  /-- A stored string sent by `res.send`: the bytes on the wire, its UTF-8 encoding. -/
  | content (bytes : Bytes)
  /-- An error handed to `next`: Express' default error handler answers with its page. -/
  | defaultError (msg : String)
  deriving DecidableEq

/-- An HTTP response: status code and body. -/
structure Response where
  status : Nat
  body : Body
  deriving DecidableEq

/-- The substrings that mark a user agent as a bot. -/
def botUserAgents : List JSString :=
  [jsLit "bot", jsLit "spider", jsLit "crawl", jsLit "slurp", jsLit "scrape"]

/-- The method `String.prototype.toLowerCase` on one code unit, as far as the bot filter can observe it:
the ASCII capitals are folded, and so are the only two other characters whose lower case
holds an ASCII letter (U+0130, which becomes `i` followed by U+0307, and the Kelvin sign
U+212A, which becomes `k`). Any other code unit outside ASCII is mapped by JavaScript to code
units outside ASCII, which no entry of `botUserAgents` contains; it is kept as it is. -/
def lowerUnit (c : Nat) : JSString :=
  if inRange 0x41 0x5A c then [c + 0x20]
  else if c == 0x130 then [0x69, 0x307]
  else if c == 0x212A then [0x6B]
  else [c]

/-- The lower-cased user agent: `userAgent.toLowerCase()`. -/
def toLowerCase (s : JSString) : JSString := s.flatMap lowerUnit

/-- The `botDetection` middleware: `true` when it answers 403 instead of calling `next`. -/
def botDetection (header : Option JSString) : Bool :=
  let userAgent := header.getD []
  botUserAgents.any fun bot => includes (toLowerCase userAgent) bot

/-- The `fileFilter` of `multer`: the error message when the submitted file name does not
end in `.json`. -/
def fileFilter (file : UploadedFile) : Option String :=
  if !endsWith file.originalname (jsLit ".json") then some "Only JSON files are allowed"
  else none

/-- The JSON validation of both upload paths: the buffer (or the file read back) is decoded as
UTF-8 text and the text is given to `JSON.parse`; `false` when `JSON.parse` throws. -/
def validJson (buffer : Bytes) : Bool := jsonParses (utf8Decode buffer)

/-! ## `api/upload.js`: the in-memory handlers -/

/-- An entry of the module-level array `files`. -/
structure StoredFile where
  name : JSString
  content : JSString
  deriving DecidableEq

/-- The upload handler of `api/upload.js` (lines 39-88), from the array `files` before the
request to the array after it and the response. The `catch` of lines 81-83 answers 500 when
the body of the `try` throws: at line 60 when `req.body` is undefined, and at lines 74-75 when
a name is not a string and so has no method `replace`. -/
def uploadHandler (files : List StoredFile) (req : UploadRequest) :
    List StoredFile × Response :=
  if botDetection req.userAgent then
    (files, ⟨403, .error "Bot detected. Access denied."⟩)
  else if !req.limiterAllows then
    (files, ⟨429, .error "Too many requests, please try again later."⟩)
  else
    match req.multipart with
    | none => (files, ⟨500, .error "Server error"⟩)
    | some form =>
      match form.file.bind fileFilter with
      | some errMessage => (files, ⟨400, .error errMessage⟩)
      | none =>
        match form.file, form.fileName, form.authorName with
        | some file, some fileName, some authorName =>
          if !fileName.truthy || !authorName.truthy then
            (files, ⟨400, .error "Missing file, fileName, or authorName"⟩)
          else
            let content := utf8Decode file.buffer
            if !jsonParses content then
              (files, ⟨400, .error "Invalid JSON file"⟩)
            else
              match fileName, authorName with
              | .text fileName, .text authorName =>
                (files ++ [{ name := fileNameWithAuthor fileName authorName,
                             content := content }],
                  ⟨200, .message "File uploaded successfully"⟩)
              | _, _ => (files, ⟨500, .error "Server error"⟩)
        | _, _, _ => (files, ⟨400, .error "Missing file, fileName, or authorName"⟩)

/-- The listing handler (`api/files.js`, lines 115-127 of the source file), on the array
`files` it is given: the names of its entries, in order. -/
def listHandler (files : List StoredFile) (req : ReadRequest) : Response :=
  if botDetection req.userAgent then ⟨403, .error "Bot detected. Access denied."⟩
  else if !req.limiterAllows then ⟨429, .error "Too many requests, please try again later."⟩
  else ⟨200, .names (files.map fun file => file.name)⟩

/-- The download handler (`api/download/[filename].js`, lines 154-174 of the source file),
on the array `files` it is given: `files.find` returns the first entry with the requested
name. -/
def downloadHandler (files : List StoredFile) (req : ReadRequest) (filename : JSString) :
    Response :=
  if botDetection req.userAgent then ⟨403, .error "Bot detected. Access denied."⟩
  else if !req.limiterAllows then ⟨429, .error "Too many requests, please try again later."⟩
  else
    match files.find? fun f => f.name == filename with
    | none => ⟨404, .error "File not found"⟩
    | some file => ⟨200, .content (utf8Encode file.content)⟩

/-- The module-level state of the three serverless functions of the source file. Each
declares an array `files` of its own (lines 7, 96 and 135); nothing imports `upload.js`, so
only the upload function ever writes, and only to its own array. -/
structure Modules where
  uploadFiles : List StoredFile
  listFiles : List StoredFile
  downloadFiles : List StoredFile
  deriving DecidableEq

/-- The state after the modules were loaded: every `files` is `[]`. -/
def Modules.loaded : Modules := { uploadFiles := [], listFiles := [], downloadFiles := [] }

/-- A request to `/api/upload`: the upload handler on the array of `upload.js`. -/
def Modules.postUpload (m : Modules) (req : UploadRequest) : Modules × Response :=
  ({ m with uploadFiles := (uploadHandler m.uploadFiles req).1 },
    (uploadHandler m.uploadFiles req).2)

/-- A request to `/api/files`: the listing handler on the array of `files.js`. -/
def Modules.getFiles (m : Modules) (req : ReadRequest) : Response :=
  listHandler m.listFiles req

/-- A request to `/api/download/[filename]`: the download handler on its own array. -/
def Modules.getDownload (m : Modules) (req : ReadRequest) (filename : JSString) : Response :=
  downloadHandler m.downloadFiles req filename

/-! ## `server.js`: the disk-backed server -/

/-- The directory `./files`: the files it holds, each with its name and its bytes. -/
abbrev Disk := List (JSString × Bytes)

/-- The bytes of the file called `name`, if the directory holds one. -/
def Disk.read (disk : Disk) (name : JSString) : Option Bytes :=
  (disk.find? fun entry => entry.1 == name).map fun entry => entry.2

/-- The directory without the file called `name` (`fs.unlink`). -/
def Disk.unlink (disk : Disk) (name : JSString) : Disk :=
  disk.filter fun entry => entry.1 != name

/-- The directory after a write stream on `name` was opened and `bytes` written: the file is
created, or truncated and rewritten when it exists. -/
def Disk.write (disk : Disk) (name : JSString) (bytes : Bytes) : Disk :=
  disk.unlink name ++ [(name, bytes)]

/-- The outcome of a request to the Express server: a response, or an exception that no
handler of the application catches (no response is written by the application). -/
inductive Outcome where
  | responded (response : Response)
  | uncaught
  deriving DecidableEq

/-- The route `POST /upload` of `server.js` with the middleware before it, from the directory
before the request to the directory after it and the outcome. `multer` calls the `filename`
callback and writes the file when the file part arrives; the route handler runs afterwards.
No handler catches the exception of the `filename` callback on a name that is absent or not
a string, nor the one of the route handler on a request without a file. -/
def serverUpload (disk : Disk) (req : UploadRequest) : Disk × Outcome :=
  if !req.limiterAllows then
    (disk, .responded ⟨429, .text "Too many requests from this IP, please try again later."⟩)
  else if botDetection req.userAgent then
    (disk, .responded ⟨403, .text "Bot detected. Access denied."⟩)
  else
    match req.multipart with
    | none => (disk, .uncaught)
    | some form =>
      match form.file with
      | none => (disk, .uncaught)
      | some file =>
        match fileFilter file with
        | some errMessage => (disk, .responded ⟨500, .defaultError errMessage⟩)
        | none =>
          match form.fileName, form.authorName with
          | some (.text fileName), some (.text authorName) =>
            let path := diskStorageFilename fileName authorName
            let written := disk.write path file.buffer
            match written.read path with
            | some bytes =>
              if jsonParses (utf8Decode bytes) then
                (written, .responded ⟨200, .text "File uploaded successfully"⟩)
              else
                (written.unlink path, .responded ⟨400, .text "Invalid JSON file"⟩)
            | none => (written.unlink path, .responded ⟨400, .text "Invalid JSON file"⟩)
          | _, _ => (disk, .uncaught)

/-- The route `GET /files` of `server.js`: the names in the directory that end in `.json`. -/
def serverListFiles (disk : Disk) : List JSString :=
  (disk.map fun entry => entry.1).filter fun file => endsWith file (jsLit ".json")

/-! ## Predicates and sample requests used in the statements -/

/-- The request is accepted by the upload handler of `api/upload.js`: it passes the bot
filter, the rate limiter and the file filter, carries a file and two non-empty names, and
the decoded file is JSON. -/
def Accepted (req : UploadRequest) (file : UploadedFile) (fileName authorName : JSString) :
    Prop :=
  botDetection req.userAgent = false ∧ req.limiterAllows = true ∧
    req.file = some file ∧ req.fileName = some fileName ∧ req.authorName = some authorName ∧
    endsWith file.originalname (jsLit ".json") = true ∧
    fileName ≠ [] ∧ authorName ≠ [] ∧ jsonParses (utf8Decode file.buffer) = true

/-- A multipart upload sent by a browser that the rate limiter lets through: a file part with
the submitted name `originalname` and the bytes `buffer`, and the two text fields, each sent
once or not at all. -/
def browserUpload (originalname : JSString) (buffer : Bytes)
    (fileName authorName : Option JSString) : UploadRequest :=
  { userAgent := some (jsLit "Mozilla/5.0"), limiterAllows := true,
    multipart := some { file := some { originalname := originalname, buffer := buffer },
                        fileName := fileName.map FieldValue.text,
                        authorName := authorName.map FieldValue.text } }

/-- A listing or download request sent by a browser that the rate limiter lets through. -/
def browserRead : ReadRequest :=
  { userAgent := some (jsLit "Mozilla/5.0"), limiterAllows := true }

/-! ## Lemmas on the sanitiser -/

theorem jsLit_underscore : jsLit "_" = [0x5F] := rfl

theorem jsLit_dotJson : jsLit ".json" = [0x2E, 0x6A, 0x73, 0x6F, 0x6E] := rfl

theorem sanitize_nil : sanitize [] = [] := rfl

theorem sanitize_cons (c : Nat) (cs : JSString) :
    sanitize (c :: cs) = (if isAlnum c then c else 0x5F) :: sanitize cs := by
  unfold sanitize
  by_cases h : isAlnum c = true <;>
    simp [replaceGlobal, notAlnumClass, h, jsLit_underscore]

theorem sanitize_eq_map (s : JSString) : sanitize s = sanitizeSpec s := by
  induction s with
  | nil => rfl
  | cons c cs ih => rw [sanitize_cons, ih]; rfl

theorem isAlnum_ne_underscore {c : Nat} (h : isAlnum c = true) : c ≠ 0x5F := by
  intro hc
  subst hc
  revert h
  decide

theorem isKeyChar_sanitize (s : JSString) : ∀ c ∈ sanitize s, isKeyChar c = true := by
  induction s with
  | nil => intro c hc; simp [sanitize_nil] at hc
  | cons d ds ih =>
    intro c hc
    rw [sanitize_cons] at hc
    rcases List.mem_cons.mp hc with h | h
    · subst h
      by_cases hd : isAlnum d = true
      · simp [isKeyChar, hd]
      · simp [isKeyChar, hd]
    · exact ih c h

theorem sanitize_of_alnum (s : JSString) (h : ∀ c ∈ s, isAlnum c = true) : sanitize s = s := by
  induction s with
  | nil => rfl
  | cons d ds ih =>
    rw [sanitize_cons, ih (fun c hc => h c (List.mem_cons_of_mem _ hc))]
    simp [h d (List.mem_cons_self _ _)]

/-! ## The in-memory upload handler: case analysis -/

theorem multipart_of_fields (req : UploadRequest) (file : UploadedFile)
    (fileName authorName : JSString) (hfile : req.file = some file)
    (hfn : req.fileName = some fileName) (han : req.authorName = some authorName) :
    req.multipart = some { file := some file, fileName := some (.text fileName),
                           authorName := some (.text authorName) } := by
  obtain ⟨ua, lim, mp⟩ := req
  rcases mp with _ | ⟨file2, fn, an⟩
  · simp [UploadRequest.file] at hfile
  · rcases fn with _ | (fn | items) <;> rcases an with _ | (an | items2) <;>
      simp_all [UploadRequest.file, UploadRequest.fileName, UploadRequest.authorName,
        FieldValue.text?]

theorem uploadHandler_cases (files : List StoredFile) (req : UploadRequest) :
    ((uploadHandler files req).2.status ≠ 200 ∧ (uploadHandler files req).1 = files) ∨
    (∃ file fileName authorName, Accepted req file fileName authorName ∧
      uploadHandler files req =
        (files ++ [{ name := fileNameWithAuthor fileName authorName,
                     content := utf8Decode file.buffer }],
          ⟨200, .message "File uploaded successfully"⟩)) := by
  by_cases hbot : botDetection req.userAgent = true
  · left; simp [uploadHandler, hbot]
  by_cases hlim : req.limiterAllows = true
  swap
  · left; simp [uploadHandler, hbot, hlim]
  obtain ⟨ua, lim, mp⟩ := req
  simp only at hbot hlim
  rcases mp with _ | ⟨file, fn, an⟩
  · left; simp [uploadHandler, hbot, hlim]
  rcases file with _ | file
  · left; simp [uploadHandler, hbot, hlim]
  by_cases hends : endsWith file.originalname (jsLit ".json") = true
  swap
  · left; simp [uploadHandler, hbot, hlim, fileFilter, hends]
  by_cases hjson : jsonParses (utf8Decode file.buffer) = true
  swap
  · left
    rcases fn with _ | fn <;> rcases an with _ | an <;>
      simp [uploadHandler, hbot, hlim, fileFilter, hends, hjson]
    split_ifs <;> simp
  rcases fn with _ | (fn | items)
  · left
    rcases an with _ | an <;> simp [uploadHandler, hbot, hlim, fileFilter, hends]
  · rcases an with _ | (an | items2)
    · left; simp [uploadHandler, hbot, hlim, fileFilter, hends]
    · by_cases hf : fn = []
      · left
        simp [uploadHandler, hbot, hlim, fileFilter, hends, hjson, hf, FieldValue.truthy]
      by_cases ha : an = []
      · left
        simp [uploadHandler, hbot, hlim, fileFilter, hends, hjson, ha, FieldValue.truthy]
      right
      refine ⟨file, fn, an, ⟨by simpa using hbot, hlim, rfl, rfl, rfl, hends, hf, ha, hjson⟩, ?_⟩
      simp [uploadHandler, hbot, hlim, fileFilter, hends, hjson, hf, ha, FieldValue.truthy]
    · left
      simp [uploadHandler, hbot, hlim, fileFilter, hends, hjson, FieldValue.truthy]
      split_ifs <;> simp
  · left
    rcases an with _ | an <;>
      simp [uploadHandler, hbot, hlim, fileFilter, hends, hjson, FieldValue.truthy]
    split_ifs <;> simp

theorem uploadHandler_accepted (files : List StoredFile) (req : UploadRequest)
    (file : UploadedFile) (fileName authorName : JSString)
    (h : Accepted req file fileName authorName) :
    uploadHandler files req =
      (files ++ [{ name := fileNameWithAuthor fileName authorName,
                   content := utf8Decode file.buffer }],
        ⟨200, .message "File uploaded successfully"⟩) := by
  obtain ⟨hbot, hlim, hfile, hfn, han, hends, hf, ha, hjson⟩ := h
  have hmp := multipart_of_fields req file fileName authorName hfile hfn han
  simp [uploadHandler, hbot, hlim, hmp, fileFilter, hends, hf, ha, hjson, FieldValue.truthy]

/-! ## Sanitiser and key derivation -/

theorem sanitizeSpec_getElem? (s : JSString) (i : Nat) :
    (sanitizeSpec s)[i]? = (s[i]?).map fun c => if isAlnum c then c else 0x5F := by
  simp [sanitizeSpec]

/-- C9: the sanitiser of the source, `replace(/[^a-zA-Z0-9]/g, '_')`, equals its reference
definition: the result has the length of the input in UTF-16 code units, holds at every
position the original code unit when that is in `[A-Za-z0-9]` and `_` otherwise, is defined
on every string, and maps the empty string to the empty string. -/
theorem sanitize_refines_spec (s : JSString) :
    sanitize s = sanitizeSpec s ∧
    (sanitize s).length = s.length ∧
    (∀ i : Nat, (sanitize s)[i]? = (s[i]?).map fun c => if isAlnum c then c else 0x5F) ∧
    sanitize [] = [] := by
  refine ⟨sanitize_eq_map s, ?_, ?_, rfl⟩
  · rw [sanitize_eq_map]; simp [sanitizeSpec]
  · intro i; rw [sanitize_eq_map]; exact sanitizeSpec_getElem? s i

/-- C10: the sanitiser is idempotent, `sanitize (sanitize s) = sanitize s` for every
string `s`. -/
theorem sanitize_idempotent (s : JSString) : sanitize (sanitize s) = sanitize s := by
  induction s with
  | nil => rfl
  | cons c cs ih =>
    rw [sanitize_cons c cs, sanitize_cons, ih]
    by_cases h : isAlnum c = true
    · simp [h]
    · have h5F : isAlnum 0x5F = false := by decide
      simp [h, h5F]

theorem not_isKeyChar_dot : isKeyChar 0x2E = false := by decide

theorem not_isKeyChar_slash : isKeyChar 0x2F = false := by decide

theorem not_isKeyChar_backslash : isKeyChar 0x5C = false := by decide

theorem isKeyChar_stem (fileName authorName : JSString) :
    ∀ c ∈ sanitize fileName ++ jsLit "_" ++ sanitize authorName, isKeyChar c = true := by
  intro c hc
  simp only [List.mem_append, jsLit_underscore, List.mem_singleton] at hc
  rcases hc with (h | h) | h
  · exact isKeyChar_sanitize _ c h
  · subst h; decide
  · exact isKeyChar_sanitize _ c h

theorem count_eq_zero_of_keyChars (stem : JSString) (c : Nat) (hc : isKeyChar c = false)
    (h : ∀ d ∈ stem, isKeyChar d = true) : stem.count c = 0 := by
  rw [List.count_eq_zero]
  intro hmem
  rw [h c hmem] at hc
  exact Bool.noConfusion hc

theorem not_dotdot_infix (stem : JSString) (h : ∀ d ∈ stem, isKeyChar d = true) :
    ¬ ([0x2E, 0x2E] <:+: stem ++ [0x2E, 0x6A, 0x73, 0x6F, 0x6E]) := by
  induction stem with
  | nil => decide
  | cons d ds ih =>
    intro hinfix
    rw [List.cons_append, List.infix_cons_iff] at hinfix
    rcases hinfix with hpre | hin
    · have hd : d = 0x2E := by
        rcases hpre with ⟨t, ht⟩
        simp only [List.cons_append, List.cons.injEq] at ht
        exact ht.1.symm
      have := h d (List.mem_cons_self _ _)
      rw [hd] at this
      revert this
      decide
    · exact ih (fun c hc => h c (List.mem_cons_of_mem _ hc)) hin

/-- C2: for every `fileName` and `authorName` the key derived by the upload code (the same
in `api/upload.js` and in `server.js`) is `sanitize fileName ++ "_" ++ sanitize authorName ++
".json"`; what precedes the suffix `.json` consists of characters of `[A-Za-z0-9_]` only, so
the key holds exactly one `.`, neither `/` nor `\`, and no `..`. -/
theorem key_invariant (fileName authorName : JSString) :
    fileNameWithAuthor fileName authorName
      = sanitize fileName ++ jsLit "_" ++ sanitize authorName ++ jsLit ".json" ∧
    diskStorageFilename fileName authorName = fileNameWithAuthor fileName authorName ∧
    (∀ c ∈ sanitize fileName ++ jsLit "_" ++ sanitize authorName, isKeyChar c = true) ∧
    (fileNameWithAuthor fileName authorName).count 0x2E = 1 ∧
    0x2F ∉ fileNameWithAuthor fileName authorName ∧
    0x5C ∉ fileNameWithAuthor fileName authorName ∧
    ¬ (jsLit ".." <:+: fileNameWithAuthor fileName authorName) := by
  have hstem := isKeyChar_stem fileName authorName
  have hkey : fileNameWithAuthor fileName authorName
      = (sanitize fileName ++ jsLit "_" ++ sanitize authorName)
        ++ [0x2E, 0x6A, 0x73, 0x6F, 0x6E] := rfl
  refine ⟨rfl, rfl, hstem, ?_, ?_, ?_, ?_⟩
  · rw [hkey, List.count_append, count_eq_zero_of_keyChars _ _ not_isKeyChar_dot hstem]
    decide
  · rw [hkey, List.mem_append]
    rintro (h | h)
    · have := hstem _ h
      rw [not_isKeyChar_slash] at this
      exact Bool.noConfusion this
    · revert h; decide
  · rw [hkey, List.mem_append]
    rintro (h | h)
    · have := hstem _ h
      rw [not_isKeyChar_backslash] at this
      exact Bool.noConfusion this
    · revert h; decide
  · rw [hkey]
    exact not_dotdot_infix _ hstem

/-- C2, at the names `../etc` and `a/b`: the derived key is `___etc_a_b.json`, with one `.`
and without `/`. -/
theorem key_invariant_witness :
    fileNameWithAuthor (jsLit "../etc") (jsLit "a/b") = jsLit "___etc_a_b.json" ∧
    (fileNameWithAuthor (jsLit "../etc") (jsLit "a/b")).count 0x2E = 1 ∧
    0x2F ∉ fileNameWithAuthor (jsLit "../etc") (jsLit "a/b") :=
  ⟨by decide, (key_invariant (jsLit "../etc") (jsLit "a/b")).2.2.2.1,
    (key_invariant (jsLit "../etc") (jsLit "a/b")).2.2.2.2.1⟩

theorem append_underscore_cancel (f g r s : JSString)
    (hf : ∀ c ∈ f, isAlnum c = true) (hg : ∀ c ∈ g, isAlnum c = true)
    (h : f ++ 0x5F :: r = g ++ 0x5F :: s) : f = g ∧ r = s := by
  induction f generalizing g with
  | nil =>
    cases g with
    | nil => simpa using h
    | cons d ds =>
      simp only [List.nil_append, List.cons_append, List.cons.injEq] at h
      exact absurd h.1.symm (isAlnum_ne_underscore (hg d (List.mem_cons_self _ _)))
  | cons c cs ih =>
    cases g with
    | nil =>
      simp only [List.nil_append, List.cons_append, List.cons.injEq] at h
      exact absurd h.1 (isAlnum_ne_underscore (hf c (List.mem_cons_self _ _)))
    | cons d ds =>
      simp only [List.cons_append, List.cons.injEq] at h
      obtain ⟨h1, h2⟩ := ih ds (fun x hx => hf x (List.mem_cons_of_mem _ hx))
        (fun x hx => hg x (List.mem_cons_of_mem _ hx)) h.2
      exact ⟨by rw [h.1, h1], h2⟩

/-- C7, counterexample: two different pairs of non-empty names with one key. The first two
differ in a character outside `[A-Za-z0-9]`, the last two in where the `_` stands. -/
theorem fileNameWithAuthor_collision :
    (jsLit "a.b" ≠ [] ∧ jsLit "a_b" ≠ [] ∧ jsLit "c" ≠ [] ∧
      (jsLit "a.b", jsLit "c") ≠ (jsLit "a_b", jsLit "c") ∧
      fileNameWithAuthor (jsLit "a.b") (jsLit "c")
        = fileNameWithAuthor (jsLit "a_b") (jsLit "c")) ∧
    (jsLit "a" ≠ [] ∧ jsLit "b_c" ≠ [] ∧
      (jsLit "a", jsLit "b_c") ≠ (jsLit "a_b", jsLit "c") ∧
      fileNameWithAuthor (jsLit "a") (jsLit "b_c")
        = fileNameWithAuthor (jsLit "a_b") (jsLit "c") ∧
      diskStorageFilename (jsLit "a") (jsLit "b_c")
        = diskStorageFilename (jsLit "a_b") (jsLit "c")) := by
  decide

/-- C7, amended: on names that consist of characters of `[A-Za-z0-9]` only, the key
derivation is collision-free: two pairs of such names that differ in a component have
different keys, in `api/upload.js` and in `server.js`. -/
theorem fileNameWithAuthor_injective_on_alnum (fileName authorName fileName2 authorName2 : JSString)
    (hf : ∀ c ∈ fileName, isAlnum c = true) (ha : ∀ c ∈ authorName, isAlnum c = true)
    (hf2 : ∀ c ∈ fileName2, isAlnum c = true) (ha2 : ∀ c ∈ authorName2, isAlnum c = true)
    (hne : (fileName, authorName) ≠ (fileName2, authorName2)) :
    fileNameWithAuthor fileName authorName ≠ fileNameWithAuthor fileName2 authorName2 ∧
    diskStorageFilename fileName authorName ≠ diskStorageFilename fileName2 authorName2 := by
  have key : fileNameWithAuthor fileName authorName
      ≠ fileNameWithAuthor fileName2 authorName2 := by
    intro h
    apply hne
    simp only [fileNameWithAuthor, sanitize_of_alnum _ hf, sanitize_of_alnum _ ha,
      sanitize_of_alnum _ hf2, sanitize_of_alnum _ ha2, jsLit_underscore,
      List.append_assoc, List.singleton_append] at h
    obtain ⟨h1, h2⟩ := append_underscore_cancel _ _ _ _ hf hf2 h
    rw [h1, List.append_cancel_right h2]
  exact ⟨key, key⟩

/-- C7, amended, at the names `report`, `alice` and `report`, `bob`. -/
theorem fileNameWithAuthor_injective_on_alnum_witness :
    fileNameWithAuthor (jsLit "report") (jsLit "alice")
        ≠ fileNameWithAuthor (jsLit "report") (jsLit "bob") ∧
    diskStorageFilename (jsLit "report") (jsLit "alice")
        ≠ diskStorageFilename (jsLit "report") (jsLit "bob") :=
  fileNameWithAuthor_injective_on_alnum (jsLit "report") (jsLit "alice") (jsLit "report")
    (jsLit "bob") (by decide) (by decide) (by decide) (by decide) (by decide)

/-! ## Frame and missing-field properties of the in-memory upload handler -/

theorem uploadHandler_rejected (files : List StoredFile) (req : UploadRequest)
    (h : (uploadHandler files req).2.status ≠ 200) : (uploadHandler files req).1 = files := by
  rcases uploadHandler_cases files req with ⟨_, h2⟩ | ⟨file, fileName, authorName, _, heq⟩
  · exact h2
  · rw [heq] at h; exact absurd rfl h

theorem uploadHandler_stored (files : List StoredFile) (req : UploadRequest)
    (h : (uploadHandler files req).2.status = 200) :
    ∃ file fileName authorName, Accepted req file fileName authorName ∧
      uploadHandler files req =
        (files ++ [{ name := fileNameWithAuthor fileName authorName,
                     content := utf8Decode file.buffer }],
          ⟨200, .message "File uploaded successfully"⟩) := by
  rcases uploadHandler_cases files req with ⟨h1, _⟩ | hacc
  · exact absurd h h1
  · exact hacc

/-- Frame of the upload handler of `api/upload.js`: an upload answered with a status other
than 200 leaves `files` unchanged, so a listing of that array is the same as before; an
upload answered 200 appends exactly one entry, under the key derived from its names, whose
content is the text decoded from its file. A request whose user agent names a bot is answered
403, and one whose submitted file name does not end in `.json` is not answered 200. -/
theorem uploadHandler_frame (files : List StoredFile) (req : UploadRequest) :
    ((uploadHandler files req).2.status ≠ 200 →
      (uploadHandler files req).1 = files ∧
      ∀ rd : ReadRequest, listHandler (uploadHandler files req).1 rd = listHandler files rd) ∧
    ((uploadHandler files req).2.status = 200 →
      ∃ file fileName authorName,
        req.file = some file ∧ req.fileName = some fileName ∧
        req.authorName = some authorName ∧
        (uploadHandler files req).1
          = files ++ [{ name := fileNameWithAuthor fileName authorName,
                        content := utf8Decode file.buffer }] ∧
        ((uploadHandler files req).1.map fun f => f.name)
          = (files.map fun f => f.name) ++ [fileNameWithAuthor fileName authorName]) ∧
    (botDetection req.userAgent = true → (uploadHandler files req).2.status = 403) ∧
    (∀ file, req.file = some file → endsWith file.originalname (jsLit ".json") = false →
      (uploadHandler files req).2.status ≠ 200) := by
  refine ⟨?_, ?_, ?_, ?_⟩
  · intro h
    have hsame := uploadHandler_rejected files req h
    exact ⟨hsame, fun rd => by rw [hsame]⟩
  rotate_left
  · intro h
    simp [uploadHandler, h]
  · intro file hfile hends h200
    obtain ⟨file2, _, _, hacc, _⟩ := uploadHandler_stored files req h200
    have hsame : file2 = file := Option.some.inj (hacc.2.2.1.symm.trans hfile)
    have hends2 := hacc.2.2.2.2.2.1
    rw [hsame, hends] at hends2
    exact Bool.noConfusion hends2
  · intro h
    obtain ⟨file, fileName, authorName, hacc, heq⟩ := uploadHandler_stored files req h
    refine ⟨file, fileName, authorName, hacc.2.2.1, hacc.2.2.2.1, hacc.2.2.2.2.1, ?_, ?_⟩
    · rw [heq]
    · rw [heq]; simp

/-- The frame of the upload handler at the upload of the bytes `not json` as `report` by
`alice`: it is answered 400, `files` stays empty and the listing stays the same. -/
theorem uploadHandler_frame_witness :
    (uploadHandler [] (browserUpload (jsLit "data.json") (jsLit "not json")
        (some (jsLit "report")) (some (jsLit "alice")))).2
      = ⟨400, .error "Invalid JSON file"⟩ ∧
    ((uploadHandler [] (browserUpload (jsLit "data.json") (jsLit "not json")
        (some (jsLit "report")) (some (jsLit "alice")))).1 = [] ∧
      ∀ rd : ReadRequest,
        listHandler (uploadHandler [] (browserUpload (jsLit "data.json") (jsLit "not json")
          (some (jsLit "report")) (some (jsLit "alice")))).1 rd = listHandler [] rd) :=
  ⟨by decide,
    (uploadHandler_frame [] (browserUpload (jsLit "data.json") (jsLit "not json")
      (some (jsLit "report")) (some (jsLit "alice")))).1 (by decide)⟩

/-- C6, counterexample: an uploaded file of zero bytes, sent as `data.json` with both
names, is not answered with the missing-field error but with `Invalid JSON file`; and a
request without `authorName` whose user agent names a bot is answered 403, not 400. -/
theorem uploadHandler_empty_file_not_missing :
    (uploadHandler [] (browserUpload (jsLit "data.json") [] (some (jsLit "report"))
        (some (jsLit "alice")))).2 = ⟨400, .error "Invalid JSON file"⟩ ∧
    (uploadHandler [] (browserUpload (jsLit "data.json") [] (some (jsLit "report"))
        (some (jsLit "alice")))).2 ≠ ⟨400, .error "Missing file, fileName, or authorName"⟩ ∧
    (uploadHandler []
        { userAgent := some (jsLit "Googlebot/2.1"), limiterAllows := true,
          multipart := some { file := some { originalname := jsLit "data.json",
                                             buffer := jsLit "[]" },
                              fileName := some (.text (jsLit "report")),
                              authorName := none } }).2
      = ⟨403, .error "Bot detected. Access denied."⟩ := by
  decide

/-- C6, amended: for a multipart request that passes the bot filter and the rate limiter and
whose file, if one is sent, has a submitted name ending in `.json`, the upload handler of
`api/upload.js` answers 400 with the missing-field error if and only if the file part is
absent, or `fileName` is absent or the empty string, or `authorName` is absent or the empty
string. The check precedes JSON validation: such a request is never answered
`Invalid JSON file` and stores nothing. A file part of zero bytes is a present file: with
both names present and not empty it reaches JSON validation and is answered 400
`Invalid JSON file`. A request that is not multipart leaves `req.body` undefined and is
answered 500 `Server error`, with nothing stored. -/
theorem uploadHandler_missing_field_iff (files : List StoredFile) (req : UploadRequest)
    (hbot : botDetection req.userAgent = false) (hlim : req.limiterAllows = true) :
    (∀ form : Multipart, req.multipart = some form →
      (∀ file, form.file = some file → endsWith file.originalname (jsLit ".json") = true) →
      ((uploadHandler files req).2 = ⟨400, .error "Missing file, fileName, or authorName"⟩ ↔
        (form.file = none ∨ form.fileName = none ∨ form.fileName = some (.text []) ∨
          form.authorName = none ∨ form.authorName = some (.text []))) ∧
      ((form.file = none ∨ form.fileName = none ∨ form.fileName = some (.text []) ∨
          form.authorName = none ∨ form.authorName = some (.text [])) →
        (uploadHandler files req).1 = files ∧
        (uploadHandler files req).2 ≠ ⟨400, .error "Invalid JSON file"⟩) ∧
      (∀ file fileName authorName, form.file = some file → file.buffer = [] →
        form.fileName = some fileName → fileName.truthy = true →
        form.authorName = some authorName → authorName.truthy = true →
        uploadHandler files req = (files, ⟨400, .error "Invalid JSON file"⟩))) ∧
    (req.multipart = none → uploadHandler files req = (files, ⟨500, .error "Server error"⟩)) := by
  obtain ⟨ua, lim, mp⟩ := req
  simp only at hbot hlim
  subst hlim
  have hempty : jsonParses (utf8Decode []) = false := by decide
  constructor
  swap
  · intro hmp
    simp only at hmp
    subst hmp
    simp [uploadHandler, hbot]
  intro form hform hname
  simp only [Option.some.injEq] at hform
  subst hform
  obtain ⟨file, fn, an⟩ := form
  simp only at hname
  rcases file with _ | file
  · simp [uploadHandler, hbot]
  have hends := hname file rfl
  refine ⟨?_, ?_, ?_⟩
  rotate_left 2
  · intro file2 fileName authorName hfile hbuf hfn hft han hat
    simp only [Option.some.injEq] at hfile
    subst hfile hfn han
    simp [uploadHandler, hbot, fileFilter, hends, hft, hat, hbuf, hempty]
  all_goals
    by_cases hjson : jsonParses (utf8Decode file.buffer) = true <;>
    rcases fn with _ | (_ | ⟨c, cs⟩) | items <;> rcases an with _ | (_ | ⟨d, ds⟩) | items2 <;>
      simp [uploadHandler, hbot, fileFilter, hends, hjson, FieldValue.truthy]

/-- C6, amended, at a multipart upload of `[]` as `report` without `authorName`: it is
answered with the missing-field error and stores nothing. -/
theorem uploadHandler_missing_field_iff_witness :
    botDetection (browserUpload (jsLit "data.json") (jsLit "[]") (some (jsLit "report"))
      none).userAgent = false ∧
    (uploadHandler [] (browserUpload (jsLit "data.json") (jsLit "[]") (some (jsLit "report"))
      none)).2 = ⟨400, .error "Missing file, fileName, or authorName"⟩ ∧
    (uploadHandler [] (browserUpload (jsLit "data.json") (jsLit "[]") (some (jsLit "report"))
      none)).1 = [] :=
  ⟨by decide,
    ((uploadHandler_missing_field_iff [] (browserUpload (jsLit "data.json") (jsLit "[]")
      (some (jsLit "report")) none) (by decide) (by decide)).1
      { file := some { originalname := jsLit "data.json", buffer := jsLit "[]" },
        fileName := some (.text (jsLit "report")), authorName := none } rfl
      (by intro file h; cases h; decide)).1.mpr (Or.inr (Or.inr (Or.inr (Or.inl rfl)))),
    by decide⟩

/-! ## UTF-8: encoding what was decoded -/

theorem inRange_iff (lo hi b : Nat) : inRange lo hi b = true ↔ lo ≤ b ∧ b ≤ hi := by
  simp [inRange]

theorem inRange_eq_false_iff (lo hi b : Nat) : inRange lo hi b = false ↔ (b < lo ∨ hi < b) := by
  rw [← Bool.not_eq_true, inRange_iff]; omega

theorem secondLo_cases (b0 : Nat) :
    (b0 = 0xE0 ∧ secondLo b0 = 0xA0) ∨ (b0 = 0xF0 ∧ secondLo b0 = 0x90)
      ∨ (b0 ≠ 0xE0 ∧ b0 ≠ 0xF0 ∧ secondLo b0 = 0x80) := by
  unfold secondLo; split_ifs <;> omega

theorem secondHi_cases (b0 : Nat) :
    (b0 = 0xED ∧ secondHi b0 = 0x9F) ∨ (b0 = 0xF4 ∧ secondHi b0 = 0x8F)
      ∨ (b0 ≠ 0xED ∧ b0 ≠ 0xF4 ∧ secondHi b0 = 0xBF) := by
  unfold secondHi; split_ifs <;> omega

theorem utf8Encode_two (u : Nat) (xs : JSString) (h1 : ¬ u < 0x80) (h2 : u < 0x800) :
    utf8Encode (u :: xs) = (0xC0 + u / 0x40) :: (0x80 + u % 0x40) :: utf8Encode xs := by
  rw [utf8Encode.eq_def]
  simp only [h1, h2, if_true, if_false]

theorem utf8Encode_three (u : Nat) (xs : JSString) (h1 : ¬ u < 0x80) (h2 : ¬ u < 0x800)
    (h3 : inRange 0xD800 0xDBFF u = false) (h4 : inRange 0xDC00 0xDFFF u = false) :
    utf8Encode (u :: xs)
      = (0xE0 + u / 0x1000) :: (0x80 + u / 0x40 % 0x40) :: (0x80 + u % 0x40) :: utf8Encode xs := by
  rw [utf8Encode.eq_def]
  simp only [h1, h2, h3, h4, if_false, Bool.false_eq_true]

theorem utf8Encode_pair (hi lo : Nat) (xs : JSString)
    (h3 : inRange 0xD800 0xDBFF hi = true) (h4 : inRange 0xDC00 0xDFFF lo = true) :
    utf8Encode (hi :: lo :: xs)
      = (0xF0 + (0x10000 + (hi - 0xD800) * 0x400 + (lo - 0xDC00)) / 0x40000)
        :: (0x80 + (0x10000 + (hi - 0xD800) * 0x400 + (lo - 0xDC00)) / 0x1000 % 0x40)
        :: (0x80 + (0x10000 + (hi - 0xD800) * 0x400 + (lo - 0xDC00)) / 0x40 % 0x40)
        :: (0x80 + (0x10000 + (hi - 0xD800) * 0x400 + (lo - 0xDC00)) % 0x40)
        :: utf8Encode xs := by
  have h1 : ¬ hi < 0x80 := by rw [inRange_iff] at h3; omega
  have h2 : ¬ hi < 0x800 := by rw [inRange_iff] at h3; omega
  rw [utf8Encode.eq_def]
  simp only [h1, h2, h3, h4, if_true, if_false]

theorem utf8Encode_decoded_two (b0 b1 : Nat) (xs : JSString)
    (h1 : 0xC2 ≤ b0 ∧ b0 ≤ 0xDF) (h2 : 0x80 ≤ b1 ∧ b1 ≤ 0xBF) :
    utf8Encode (((b0 - 0xC0) * 0x40 + (b1 - 0x80)) :: xs) = b0 :: b1 :: utf8Encode xs := by
  have f0 : 0xC0 + ((b0 - 0xC0) * 0x40 + (b1 - 0x80)) / 0x40 = b0 := by omega
  have f1 : 0x80 + ((b0 - 0xC0) * 0x40 + (b1 - 0x80)) % 0x40 = b1 := by omega
  rw [utf8Encode_two _ _ (by omega) (by omega), f0, f1]

theorem utf8Encode_decoded_three (b0 b1 b2 : Nat) (xs : JSString)
    (h0 : 0xE0 ≤ b0 ∧ b0 ≤ 0xEF) (h1 : secondLo b0 ≤ b1 ∧ b1 ≤ secondHi b0)
    (h2 : 0x80 ≤ b2 ∧ b2 ≤ 0xBF) :
    utf8Encode (((b0 - 0xE0) * 0x1000 + (b1 - 0x80) * 0x40 + (b2 - 0x80)) :: xs)
      = b0 :: b1 :: b2 :: utf8Encode xs := by
  have hlo := secondLo_cases b0
  have hhi := secondHi_cases b0
  have f0 : 0xE0 + ((b0 - 0xE0) * 0x1000 + (b1 - 0x80) * 0x40 + (b2 - 0x80)) / 0x1000 = b0 := by
    omega
  have f1 : 0x80 + ((b0 - 0xE0) * 0x1000 + (b1 - 0x80) * 0x40 + (b2 - 0x80)) / 0x40 % 0x40
      = b1 := by omega
  have f2 : 0x80 + ((b0 - 0xE0) * 0x1000 + (b1 - 0x80) * 0x40 + (b2 - 0x80)) % 0x40 = b2 := by
    omega
  rw [utf8Encode_three _ _ (by omega) (by omega)
    (by rw [inRange_eq_false_iff]; omega) (by rw [inRange_eq_false_iff]; omega), f0, f1, f2]

theorem utf8Encode_decoded_four (b0 b1 b2 b3 : Nat) (xs : JSString)
    (h0 : 0xF0 ≤ b0 ∧ b0 ≤ 0xF4) (h1 : secondLo b0 ≤ b1 ∧ b1 ≤ secondHi b0)
    (h2 : 0x80 ≤ b2 ∧ b2 ≤ 0xBF) (h3 : 0x80 ≤ b3 ∧ b3 ≤ 0xBF) :
    utf8Encode
      ((0xD800 + ((b0 - 0xF0) * 0x40000 + (b1 - 0x80) * 0x1000 + (b2 - 0x80) * 0x40
          + (b3 - 0x80) - 0x10000) / 0x400)
        :: (0xDC00 + ((b0 - 0xF0) * 0x40000 + (b1 - 0x80) * 0x1000 + (b2 - 0x80) * 0x40
          + (b3 - 0x80) - 0x10000) % 0x400) :: xs)
      = b0 :: b1 :: b2 :: b3 :: utf8Encode xs := by
  have hlo := secondLo_cases b0
  have hhi := secondHi_cases b0
  generalize hcp : (b0 - 0xF0) * 0x40000 + (b1 - 0x80) * 0x1000 + (b2 - 0x80) * 0x40
    + (b3 - 0x80) = cp
  have hcp1 : 0x10000 ≤ cp := by omega
  have hcp2 : cp ≤ 0x10FFFF := by omega
  have e5 : 0x10000 + (0xD800 + (cp - 0x10000) / 0x400 - 0xD800) * 0x400
      + (0xDC00 + (cp - 0x10000) % 0x400 - 0xDC00) = cp := by omega
  have f0 : 0xF0 + cp / 0x40000 = b0 := by omega
  have f1 : 0x80 + cp / 0x1000 % 0x40 = b1 := by omega
  have f2 : 0x80 + cp / 0x40 % 0x40 = b2 := by omega
  have f3 : 0x80 + cp % 0x40 = b3 := by omega
  rw [utf8Encode_pair _ _ _ (by rw [inRange_iff]; omega) (by rw [inRange_iff]; omega),
    e5, f0, f1, f2, f3]

/-- Encoding the text decoded from a well-formed UTF-8 byte sequence gives the bytes back. -/
theorem utf8Encode_utf8Decode (b : Bytes) (h : wellFormedUtf8 b = true) :
    utf8Encode (utf8Decode b) = b := by
  induction b using wellFormedUtf8.induct with
  | case1 => rfl
  | case2 b0 rest h0 ih =>
    rw [wellFormedUtf8.eq_def] at h
    simp only [h0, if_true] at h
    rw [utf8Decode.eq_def]
    simp only [h0, if_true]
    rw [utf8Encode.eq_def]
    simp only [h0, if_true, ih h]
  | case4 b0 h0 h1 b1 r1 ih =>
    rw [wellFormedUtf8.eq_def] at h
    simp only [h0, h1, if_true, if_false, Bool.false_eq_true, Bool.and_eq_true] at h
    rw [utf8Decode.eq_def]
    simp only [h0, h1, h.1, if_true, if_false, Bool.false_eq_true]
    rw [utf8Encode_decoded_two b0 b1 _ ((inRange_iff _ _ _).mp h1) ((inRange_iff _ _ _).mp h.1),
      ih h.2]
  | case7 b0 h0 h1 h2 b1 b2 r2 ih =>
    rw [wellFormedUtf8.eq_def] at h
    simp only [h0, h1, h2, if_true, if_false, Bool.false_eq_true, Bool.and_eq_true] at h
    rw [utf8Decode.eq_def]
    simp only [h0, h1, h2, h.1.1, h.1.2, if_true, if_false, Bool.false_eq_true]
    rw [utf8Encode_decoded_three b0 b1 b2 _ ((inRange_iff _ _ _).mp h2)
      ((inRange_iff _ _ _).mp h.1.1) ((inRange_iff _ _ _).mp h.1.2), ih h.2]
  | case11 b0 h0 h1 h2 h3 b1 b2 b3 r3 ih =>
    rw [wellFormedUtf8.eq_def] at h
    simp only [h0, h1, h2, h3, if_true, if_false, Bool.false_eq_true, Bool.and_eq_true] at h
    rw [utf8Decode.eq_def]
    simp only [h0, h1, h2, h3, h.1.1.1, h.1.1.2, h.1.2, if_true, if_false, Bool.false_eq_true]
    rw [utf8Encode_decoded_four b0 b1 b2 b3 _ ((inRange_iff _ _ _).mp h3)
      ((inRange_iff _ _ _).mp h.1.1.1) ((inRange_iff _ _ _).mp h.1.1.2)
      ((inRange_iff _ _ _).mp h.1.2), ih h.2]
  | _ =>
    rw [wellFormedUtf8.eq_def] at h
    simp_all
    try omega

/-! ## The directory of the disk-backed server -/

theorem Disk.find?_unlink (disk : Disk) (name : JSString) :
    (disk.unlink name).find? (fun entry => entry.1 == name) = none := by
  rw [List.find?_eq_none]
  intro entry hmem
  have := (List.mem_filter.mp hmem).2
  simpa using this

theorem Disk.read_write (disk : Disk) (name : JSString) (bytes : Bytes) :
    (disk.write name bytes).read name = some bytes := by
  unfold Disk.read Disk.write
  rw [List.find?_append, Disk.find?_unlink]
  simp

theorem Disk.unlink_write (disk : Disk) (name : JSString) (bytes : Bytes) :
    (disk.write name bytes).unlink name = disk.unlink name := by
  unfold Disk.write Disk.unlink
  simp [List.filter_append, List.filter_filter]

theorem Disk.unlink_of_absent (disk : Disk) (name : JSString) (h : disk.read name = none) :
    disk.unlink name = disk := by
  unfold Disk.unlink
  rw [List.filter_eq_self]
  intro entry hmem
  unfold Disk.read at h
  simp only [Option.map_eq_none', List.find?_eq_none] at h
  simpa using h entry hmem

theorem Disk.read_unlink (disk : Disk) (name : JSString) : (disk.unlink name).read name = none := by
  unfold Disk.read
  rw [Disk.find?_unlink]
  rfl

theorem Disk.mem_of_mem_unlink (disk : Disk) (name : JSString) (entry : JSString × Bytes)
    (h : entry ∈ disk.unlink name) : entry ∈ disk :=
  (List.mem_filter.mp h).1

/-- The route of `server.js` on a request that passes the rate limiter, the bot filter and
the file filter and whose body holds both names when the file part arrives: the file is
written under the derived name, and removed again when its decoded content is not JSON. -/
theorem serverUpload_written (disk : Disk) (req : UploadRequest) (file : UploadedFile)
    (fileName authorName : JSString)
    (hbot : botDetection req.userAgent = false) (hlim : req.limiterAllows = true)
    (hfile : req.file = some file) (hends : endsWith file.originalname (jsLit ".json") = true)
    (hfn : req.fileName = some fileName) (han : req.authorName = some authorName) :
    serverUpload disk req =
      if jsonParses (utf8Decode file.buffer) then
        (disk.write (diskStorageFilename fileName authorName) file.buffer,
          .responded ⟨200, .text "File uploaded successfully"⟩)
      else
        (disk.unlink (diskStorageFilename fileName authorName),
          .responded ⟨400, .text "Invalid JSON file"⟩) := by
  have hmp := multipart_of_fields req file fileName authorName hfile hfn han
  unfold serverUpload
  simp only [hbot, hlim, hmp, fileFilter, hends, Disk.read_write, Disk.unlink_write,
    Bool.not_true, Bool.false_eq_true, if_false]

theorem serverUpload_preserves_valid (disk : Disk) (req : UploadRequest)
    (h : ∀ entry ∈ disk, validJson entry.2 = true) :
    ∀ entry ∈ (serverUpload disk req).1, validJson entry.2 = true := by
  unfold serverUpload
  split_ifs with hlim hbot
  · exact h
  · exact h
  · split
    · exact h
    · split
      · exact h
      · rename_i file hfile
        split
        · exact h
        · split
          · rename_i fileName authorName
            simp only [Disk.read_write, Disk.unlink_write]
            split_ifs with hjson
            · intro entry hmem
              unfold Disk.write at hmem
              rcases List.mem_append.mp hmem with hold | hnew
              · exact h entry (Disk.mem_of_mem_unlink _ _ _ hold)
              · rw [List.mem_singleton.mp hnew]
                exact hjson
            · intro entry hmem
              exact h entry (Disk.mem_of_mem_unlink _ _ _ hmem)
          · exact h

theorem uploadHandler_preserves_valid (files : List StoredFile) (req : UploadRequest)
    (h : ∀ f ∈ files, jsonParses f.content = true) :
    ∀ f ∈ (uploadHandler files req).1, jsonParses f.content = true := by
  rcases uploadHandler_cases files req with ⟨_, hsame⟩ | ⟨file, fileName, authorName, hacc, heq⟩
  · rw [hsame]; exact h
  · rw [heq]
    intro f hmem
    rcases List.mem_append.mp hmem with hold | hnew
    · exact h f hold
    · rw [List.mem_singleton.mp hnew]
      exact hacc.2.2.2.2.2.2.2.2

/-! ## JSON validation -/

/-- C5, counterexample: the three bytes `22 FF 22` are not well-formed UTF-8, yet the
validation accepts them. The in-memory handler answers 200 and stores the decoded text, in
which U+FFFD stands for the byte `FF`; the disk-backed server answers 200 and keeps the
file. -/
theorem validation_accepts_ill_formed_utf8 :
    wellFormedUtf8 [0x22, 0xFF, 0x22] = false ∧
    validJson [0x22, 0xFF, 0x22] = true ∧
    uploadHandler [] (browserUpload (jsLit "data.json") [0x22, 0xFF, 0x22]
        (some (jsLit "report")) (some (jsLit "alice")))
      = ([{ name := jsLit "report_alice.json", content := [0x22, 0xFFFD, 0x22] }],
          ⟨200, .message "File uploaded successfully"⟩) ∧
    serverUpload [] (browserUpload (jsLit "data.json") [0x22, 0xFF, 0x22]
        (some (jsLit "report")) (some (jsLit "alice")))
      = ([(jsLit "report_alice.json", [0x22, 0xFF, 0x22])],
          .responded ⟨200, .text "File uploaded successfully"⟩) := by
  decide

/-- C5, amended: the validation of the upload handlers decodes the buffer leniently (an
ill-formed sequence becomes U+FFFD, decoding never fails) and reports Invalid exactly when
`JSON.parse` rejects the decoded text. A request that reaches validation is answered 400
`Invalid JSON file`, with nothing stored in `files`, when the decoded text is rejected, and
200 with the upload stored when it is accepted. Consequently every content that the
in-memory handler stores is text that `JSON.parse` accepts, and every file that the
disk-backed server leaves in the directory decodes to such text. -/
theorem validation_decodes_leniently (files : List StoredFile) (disk : Disk)
    (req : UploadRequest) (file : UploadedFile) (fileName authorName : JSString)
    (hbot : botDetection req.userAgent = false) (hlim : req.limiterAllows = true)
    (hfile : req.file = some file) (hends : endsWith file.originalname (jsLit ".json") = true)
    (hfn : req.fileName = some fileName) (hf : fileName ≠ [])
    (han : req.authorName = some authorName) (ha : authorName ≠ []) :
    (jsonParses (utf8Decode file.buffer) = false →
      validJson file.buffer = false ∧
      uploadHandler files req = (files, ⟨400, .error "Invalid JSON file"⟩) ∧
      (serverUpload disk req).2 = .responded ⟨400, .text "Invalid JSON file"⟩) ∧
    (jsonParses (utf8Decode file.buffer) = true →
      validJson file.buffer = true ∧
      uploadHandler files req =
        (files ++ [{ name := fileNameWithAuthor fileName authorName,
                     content := utf8Decode file.buffer }],
          ⟨200, .message "File uploaded successfully"⟩) ∧
      serverUpload disk req =
        (disk.write (diskStorageFilename fileName authorName) file.buffer,
          .responded ⟨200, .text "File uploaded successfully"⟩)) ∧
    ((∀ f ∈ files, jsonParses f.content = true) →
      ∀ f ∈ (uploadHandler files req).1, jsonParses f.content = true) ∧
    ((∀ entry ∈ disk, validJson entry.2 = true) →
      ∀ entry ∈ (serverUpload disk req).1, validJson entry.2 = true) := by
  have hmp := multipart_of_fields req file fileName authorName hfile hfn han
  refine ⟨?_, ?_, uploadHandler_preserves_valid files req, serverUpload_preserves_valid disk req⟩
  · intro hjson
    refine ⟨hjson, ?_, ?_⟩
    · simp [uploadHandler, hbot, hlim, hmp, fileFilter, hends, hf, ha, hjson,
        FieldValue.truthy]
    · rw [serverUpload_written disk req file fileName authorName hbot hlim hfile hends hfn han]
      simp [hjson]
  · intro hjson
    refine ⟨hjson, ?_, ?_⟩
    · exact uploadHandler_accepted files req file fileName authorName
        ⟨hbot, hlim, hfile, hfn, han, hends, hf, ha, hjson⟩
    · rw [serverUpload_written disk req file fileName authorName hbot hlim hfile hends hfn han]
      simp [hjson]

/-- C5, amended, at the upload of the bytes `not json` as `report` by `alice` into empty
stores: the validation reports Invalid, both servers answer 400, `files` stays empty. -/
theorem validation_decodes_leniently_witness :
    jsonParses (utf8Decode (jsLit "not json")) = false ∧
    (validJson (jsLit "not json") = false ∧
      uploadHandler [] (browserUpload (jsLit "data.json") (jsLit "not json")
        (some (jsLit "report")) (some (jsLit "alice")))
        = ([], ⟨400, .error "Invalid JSON file"⟩) ∧
      (serverUpload [] (browserUpload (jsLit "data.json") (jsLit "not json")
        (some (jsLit "report")) (some (jsLit "alice")))).2
        = .responded ⟨400, .text "Invalid JSON file"⟩) :=
  ⟨by decide,
    (validation_decodes_leniently [] [] (browserUpload (jsLit "data.json") (jsLit "not json")
      (some (jsLit "report")) (some (jsLit "alice")))
      ⟨jsLit "data.json", jsLit "not json"⟩ (jsLit "report") (jsLit "alice")
      (by decide) (by decide) rfl (by decide) rfl (by decide) rfl (by decide)).1 (by decide)⟩

/-! ## Upload followed by download -/

theorem find?_append_fresh (files : List StoredFile) (entry : StoredFile)
    (hfresh : ∀ f ∈ files, f.name ≠ entry.name) :
    (files ++ [entry]).find? (fun f => f.name == entry.name) = some entry := by
  rw [List.find?_append]
  have hnone : files.find? (fun f => f.name == entry.name) = none := by
    rw [List.find?_eq_none]
    intro f hmem
    simpa using hfresh f hmem
  rw [hnone]
  simp

theorem find?_append_shadowed (files : List StoredFile) (e1 e2 : StoredFile) (key : JSString)
    (h : e1.name = key) :
    (files ++ [e1] ++ [e2]).find? (fun f => f.name == key)
      = (files ++ [e1]).find? (fun f => f.name == key) := by
  have hsome : ((files ++ [e1]).find? (fun f => f.name == key)).isSome = true := by
    rw [List.find?_isSome]
    exact ⟨e1, by simp, by simp [h]⟩
  rw [List.find?_append]
  cases hfind : (files ++ [e1]).find? (fun f => f.name == key) with
  | none => rw [hfind] at hsome; exact absurd hsome (by simp)
  | some x => rfl

/-- C1, on the code: the upload of the bytes of `[1]` as `report` by `alice` is answered
200, and the following download of `report_alice.json` is answered 404: the download function
searches the array `files` of its own module, which no upload writes to. Read as its comment
says, on the array of `upload.js`, the download still does not return every accepted upload
unchanged: the bytes `22 FF 22` are answered 200 and downloaded as the five bytes
`22 EF BF BD 22`, the same as an upload of those five bytes, because the handler stores the
decoded text; the disk-backed server keeps the three bytes as they were sent. -/
theorem upload_then_download_on_code :
    (Modules.loaded.postUpload (browserUpload (jsLit "data.json") (jsLit "[1]")
        (some (jsLit "report")) (some (jsLit "alice")))).2.status = 200 ∧
    (Modules.loaded.postUpload (browserUpload (jsLit "data.json") (jsLit "[1]")
        (some (jsLit "report")) (some (jsLit "alice")))).1.getDownload
        browserRead (jsLit "report_alice.json")
      = ⟨404, .error "File not found"⟩ ∧
    (uploadHandler [] (browserUpload (jsLit "data.json") [0x22, 0xFF, 0x22]
        (some (jsLit "report")) (some (jsLit "alice")))).2.status = 200 ∧
    downloadHandler
        (uploadHandler [] (browserUpload (jsLit "data.json") [0x22, 0xFF, 0x22]
          (some (jsLit "report")) (some (jsLit "alice")))).1
        browserRead (jsLit "report_alice.json")
      = ⟨200, .content [0x22, 0xEF, 0xBF, 0xBD, 0x22]⟩ ∧
    (uploadHandler [] (browserUpload (jsLit "data.json") [0x22, 0xFF, 0x22]
        (some (jsLit "report")) (some (jsLit "alice")))).1
      = (uploadHandler [] (browserUpload (jsLit "data.json") [0x22, 0xEF, 0xBF, 0xBD, 0x22]
        (some (jsLit "report")) (some (jsLit "alice")))).1 ∧
    Disk.read
        (serverUpload [] (browserUpload (jsLit "data.json") [0x22, 0xFF, 0x22]
          (some (jsLit "report")) (some (jsLit "alice")))).1
        (jsLit "report_alice.json")
      = some [0x22, 0xFF, 0x22] := by
  decide

/-- The upload and download handlers applied to one and the same array, as the comments of
the source describe the store: when the upload handler answers 200 to a file with the bytes
`b`, and the array held no entry under the derived key before, a download of the derived key
(by a request that passes the bot filter and the rate limiter) is answered 200 with the UTF-8
encoding of the text decoded from `b`; when `b` is well-formed UTF-8 these are the bytes
`b`. -/
theorem upload_download_roundtrip (files : List StoredFile) (req : UploadRequest)
    (rd : ReadRequest) (file : UploadedFile) (fileName authorName : JSString)
    (hfile : req.file = some file) (hfn : req.fileName = some fileName)
    (han : req.authorName = some authorName)
    (h200 : (uploadHandler files req).2.status = 200)
    (hfresh : ∀ f ∈ files, f.name ≠ fileNameWithAuthor fileName authorName)
    (hbot : botDetection rd.userAgent = false) (hlim : rd.limiterAllows = true) :
    downloadHandler (uploadHandler files req).1 rd (fileNameWithAuthor fileName authorName)
      = ⟨200, .content (utf8Encode (utf8Decode file.buffer))⟩ ∧
    (wellFormedUtf8 file.buffer = true →
      downloadHandler (uploadHandler files req).1 rd (fileNameWithAuthor fileName authorName)
        = ⟨200, .content file.buffer⟩) := by
  obtain ⟨file2, fileName2, authorName2, hacc, heq⟩ := uploadHandler_stored files req h200
  obtain ⟨_, _, hfile2, hfn2, han2, _⟩ := hacc
  rw [hfile] at hfile2
  rw [hfn] at hfn2
  rw [han] at han2
  cases hfile2
  cases hfn2
  cases han2
  have hdl : downloadHandler (uploadHandler files req).1 rd
      (fileNameWithAuthor fileName authorName)
      = ⟨200, .content (utf8Encode (utf8Decode file.buffer))⟩ := by
    rw [heq]
    unfold downloadHandler
    simp only [hbot, hlim, Bool.not_true, Bool.false_eq_true, if_false]
    rw [find?_append_fresh files
      { name := fileNameWithAuthor fileName authorName, content := utf8Decode file.buffer }
      hfresh]
  refine ⟨hdl, ?_⟩
  intro hwf
  rw [hdl, utf8Encode_utf8Decode _ hwf]

/-- The handlers on one array, at the upload of the bytes of `[1]` as `report` by `alice`
into the empty array: the download of `report_alice.json` returns the same bytes. -/
theorem upload_download_roundtrip_witness :
    fileNameWithAuthor (jsLit "report") (jsLit "alice") = jsLit "report_alice.json" ∧
    downloadHandler
        (uploadHandler [] (browserUpload (jsLit "data.json") (jsLit "[1]")
          (some (jsLit "report")) (some (jsLit "alice")))).1
        browserRead (fileNameWithAuthor (jsLit "report") (jsLit "alice"))
      = ⟨200, .content (jsLit "[1]")⟩ :=
  ⟨by decide,
    (upload_download_roundtrip [] (browserUpload (jsLit "data.json") (jsLit "[1]")
      (some (jsLit "report")) (some (jsLit "alice"))) browserRead
      ⟨jsLit "data.json", jsLit "[1]"⟩ (jsLit "report") (jsLit "alice")
      rfl rfl rfl (by decide) (by intro f hf; cases hf) (by decide) (by decide)).2 (by decide)⟩

/-! ## Uploading twice under the same names -/

/-- After two accepted uploads under the same names the download of the derived key returns
what it returned after the first of them, and the listing holds the key at least twice. -/
theorem reupload_shadowed (files : List StoredFile) (req1 req2 : UploadRequest)
    (rd : ReadRequest) (file1 file2 : UploadedFile) (fileName authorName : JSString)
    (h1 : Accepted req1 file1 fileName authorName)
    (h2 : Accepted req2 file2 fileName authorName) :
    downloadHandler (uploadHandler (uploadHandler files req1).1 req2).1 rd
        (fileNameWithAuthor fileName authorName)
      = downloadHandler (uploadHandler files req1).1 rd
        (fileNameWithAuthor fileName authorName) ∧
    2 ≤ ((uploadHandler (uploadHandler files req1).1 req2).1.map fun f => f.name).count
        (fileNameWithAuthor fileName authorName) := by
  rw [uploadHandler_accepted _ req2 file2 fileName authorName h2,
    uploadHandler_accepted _ req1 file1 fileName authorName h1]
  dsimp only
  constructor
  · unfold downloadHandler
    rw [find?_append_shadowed files
      { name := fileNameWithAuthor fileName authorName, content := utf8Decode file1.buffer }
      { name := fileNameWithAuthor fileName authorName, content := utf8Decode file2.buffer }
      (fileNameWithAuthor fileName authorName) rfl]
  · simp only [List.map_append, List.map_cons, List.map_nil, List.count_append,
      List.count_singleton, beq_self_eq_true, if_true]
    omega

/-- C4, on the code: two accepted uploads as `report` by `alice`, first of `1` and then of
`2`, into the empty store. The download of `report_alice.json` returns the first content,
`1`, and the listing shows the key twice. -/
theorem reupload_keeps_first_content :
    (uploadHandler [] (browserUpload (jsLit "data.json") (jsLit "1")
        (some (jsLit "report")) (some (jsLit "alice")))).2.status = 200 ∧
    (uploadHandler
        (uploadHandler [] (browserUpload (jsLit "data.json") (jsLit "1")
          (some (jsLit "report")) (some (jsLit "alice")))).1
        (browserUpload (jsLit "data.json") (jsLit "2")
          (some (jsLit "report")) (some (jsLit "alice")))).2.status = 200 ∧
    downloadHandler
        (uploadHandler
          (uploadHandler [] (browserUpload (jsLit "data.json") (jsLit "1")
            (some (jsLit "report")) (some (jsLit "alice")))).1
          (browserUpload (jsLit "data.json") (jsLit "2")
            (some (jsLit "report")) (some (jsLit "alice")))).1
        browserRead (jsLit "report_alice.json")
      = ⟨200, .content (jsLit "1")⟩ ∧
    listHandler
        (uploadHandler
          (uploadHandler [] (browserUpload (jsLit "data.json") (jsLit "1")
            (some (jsLit "report")) (some (jsLit "alice")))).1
          (browserUpload (jsLit "data.json") (jsLit "2")
            (some (jsLit "report")) (some (jsLit "alice")))).1
        browserRead
      = ⟨200, .names [jsLit "report_alice.json", jsLit "report_alice.json"]⟩ := by
  decide

/-- The two uploads of `1` and `2` as `report` by `alice`, with the three modules each on
its own array: the download is answered 404 and the listing is empty. -/
theorem reupload_on_separate_arrays :
    ((Modules.loaded.postUpload (browserUpload (jsLit "data.json") (jsLit "1")
        (some (jsLit "report")) (some (jsLit "alice")))).1.postUpload
        (browserUpload (jsLit "data.json") (jsLit "2")
          (some (jsLit "report")) (some (jsLit "alice")))).1.getDownload
        browserRead (jsLit "report_alice.json")
      = ⟨404, .error "File not found"⟩ ∧
    ((Modules.loaded.postUpload (browserUpload (jsLit "data.json") (jsLit "1")
        (some (jsLit "report")) (some (jsLit "alice")))).1.postUpload
        (browserUpload (jsLit "data.json") (jsLit "2")
          (some (jsLit "report")) (some (jsLit "alice")))).1.getFiles browserRead
      = ⟨200, .names []⟩ := by
  decide

/-! ## What an accepted upload stores -/

/-- C8, on the code: the upload of the three bytes `22 FF 22` as `report` by `alice` is
answered 200 and adds one entry under `report_alice.json`, but the content of the entry is
the decoded text, a quoted U+FFFD, whose bytes `22 EF BF BD 22` are not the uploaded ones;
the disk-backed server stores the three bytes under the same key. The listing function,
which reads the array of its own module, stays empty after the accepted upload. -/
theorem uploadHandler_stores_decoded_text :
    uploadHandler [] (browserUpload (jsLit "data.json") [0x22, 0xFF, 0x22]
        (some (jsLit "report")) (some (jsLit "alice")))
      = ([{ name := jsLit "report_alice.json", content := [0x22, 0xFFFD, 0x22] }],
          ⟨200, .message "File uploaded successfully"⟩) ∧
    utf8Encode [0x22, 0xFFFD, 0x22] = [0x22, 0xEF, 0xBF, 0xBD, 0x22] ∧
    utf8Encode [0x22, 0xFFFD, 0x22] ≠ [0x22, 0xFF, 0x22] ∧
    (serverUpload [] (browserUpload (jsLit "data.json") [0x22, 0xFF, 0x22]
        (some (jsLit "report")) (some (jsLit "alice")))).1
      = [(jsLit "report_alice.json", [0x22, 0xFF, 0x22])] ∧
    (Modules.loaded.postUpload (browserUpload (jsLit "data.json") [0x22, 0xFF, 0x22]
        (some (jsLit "report")) (some (jsLit "alice")))).1.getFiles browserRead
      = ⟨200, .names []⟩ := by
  decide

/-! ## A failed upload to the disk-backed server -/

/-- When the directory holds no file under the derived name, an upload whose decoded content
is not JSON is answered 400 and leaves the directory as it was. -/
theorem serverUpload_invalid_fresh (disk : Disk) (req : UploadRequest) (file : UploadedFile)
    (fileName authorName : JSString)
    (hbot : botDetection req.userAgent = false) (hlim : req.limiterAllows = true)
    (hfile : req.file = some file) (hends : endsWith file.originalname (jsLit ".json") = true)
    (hfn : req.fileName = some fileName) (han : req.authorName = some authorName)
    (hinvalid : validJson file.buffer = false)
    (hfresh : disk.read (diskStorageFilename fileName authorName) = none) :
    serverUpload disk req = (disk, .responded ⟨400, .text "Invalid JSON file"⟩) := by
  unfold validJson at hinvalid
  rw [serverUpload_written disk req file fileName authorName hbot hlim hfile hends hfn han,
    hinvalid, Disk.unlink_of_absent disk _ hfresh]
  rfl

/-- When the directory holds a file under the derived name, an upload whose decoded content
is not JSON is answered 400 and removes that file. -/
theorem serverUpload_invalid_removes (disk : Disk) (req : UploadRequest) (file : UploadedFile)
    (fileName authorName : JSString)
    (hbot : botDetection req.userAgent = false) (hlim : req.limiterAllows = true)
    (hfile : req.file = some file) (hends : endsWith file.originalname (jsLit ".json") = true)
    (hfn : req.fileName = some fileName) (han : req.authorName = some authorName)
    (hinvalid : validJson file.buffer = false) :
    (serverUpload disk req).2 = .responded ⟨400, .text "Invalid JSON file"⟩ ∧
    (serverUpload disk req).1.read (diskStorageFilename fileName authorName) = none := by
  unfold validJson at hinvalid
  rw [serverUpload_written disk req file fileName authorName hbot hlim hfile hends hfn han,
    hinvalid]
  exact ⟨rfl, Disk.read_unlink disk _⟩

/-- C3, on the code: the directory holds `report_alice.json` with the content `[1]`; the
upload of the bytes `not json` as `report` by `alice` is answered 400, and afterwards the
directory is empty: the file that was there is gone, from reading and from the listing. -/
theorem serverUpload_invalid_deletes_existing :
    validJson (jsLit "not json") = false ∧
    Disk.read [(jsLit "report_alice.json", jsLit "[1]")] (jsLit "report_alice.json")
      = some (jsLit "[1]") ∧
    serverUpload [(jsLit "report_alice.json", jsLit "[1]")]
        (browserUpload (jsLit "data.json") (jsLit "not json")
          (some (jsLit "report")) (some (jsLit "alice")))
      = ([], .responded ⟨400, .text "Invalid JSON file"⟩) ∧
    Disk.read
        (serverUpload [(jsLit "report_alice.json", jsLit "[1]")]
          (browserUpload (jsLit "data.json") (jsLit "not json")
            (some (jsLit "report")) (some (jsLit "alice")))).1
        (jsLit "report_alice.json")
      = none ∧
    serverListFiles [(jsLit "report_alice.json", jsLit "[1]")] = [jsLit "report_alice.json"] ∧
    serverListFiles
        (serverUpload [(jsLit "report_alice.json", jsLit "[1]")]
          (browserUpload (jsLit "data.json") (jsLit "not json")
            (some (jsLit "report")) (some (jsLit "alice")))).1
      = [] := by
  decide


end JsonMaker
